import Mathlib

/-!
Verification of the MulingNet-AI frontend against its natural-language
specification.  The definitions below are a shallow embedding of the React
components under `src/frontend/src/components/` (JsonOutputPanel, AccountsTable,
QuantumPanel, DisruptionPanel, WhatIfSimulator, GraphView, AgentsChart, App).
Backend components (Aggregator, PartitionOptimizer, CounterfactualSimulator,
DisruptionAnalyzer) are not part of the repository snapshot; where a claim
depends on them they are modelled from the specification and the repository's
own README, and each such definition is marked `Modelled from the spec:`.

JavaScript conventions are embedded explicitly: fields that may be `null` or
`undefined` become `Option`, the `??` operator becomes `Option.getD`, and the
`||` operator on strings becomes `jsStrOr` (the empty string is falsy).
-/

namespace MulingNet

/-- JavaScript `a || d` for a possibly-missing string `a`: `null`, `undefined`
and the empty string are all falsy and fall through to the default. -/
def jsStrOr (a : Option String) (d : String) : String :=
  match a with
  | some s => if s = "" then d else s
  | none => d

/-- A JSON value, the shape of the objects the frontend builds and serialises. -/
inductive Jval where
  | str (s : String)
  | num (q : ℚ)
  | bool (b : Bool)
  | null
  | arr (xs : List Jval)
  | obj (kvs : List (String × Jval))

/-- The keys of a JSON object (empty for non-objects). -/
def Jval.objKeys : Jval → List String
  | .obj kvs => kvs.map Prod.fst
  | _ => []

/-- Looks a key up in a JSON object. -/
def Jval.objGet (v : Jval) (k : String) : Option Jval :=
  match v with
  | .obj kvs => (kvs.find? (fun kv => kv.1 = k)).map Prod.snd
  | _ => none

/-- The component-score record `component_scores:{graph, ml, quantum}` of an
account; the frontend reads each sub-score with `??`-fallbacks, so each is
optional (`quantum` is `null` for rings that bypassed partition optimization). -/
structure ComponentScores where
  graph : Option ℚ
  ml : Option ℚ
  quantum : Option ℚ
  deriving DecidableEq

/-- An account record as delivered by the analysis to the frontend.  The
optional legacy aliases `score` and `patterns` mirror the `??`/`||` fallback
chains in `JsonOutputPanel.outputJson`. -/
structure Account where
  account_id : String
  suspicion_score : Option ℚ
  score : Option ℚ
  detected_patterns : Option (List String)
  patterns : Option (List String)
  ring_id : Option String
  component_scores : Option ComponentScores
  deriving DecidableEq

/-- A fraud-ring record as delivered to the frontend, with the legacy aliases
(`accounts`, `type`) used by the export fallbacks. -/
structure Ring where
  ring_id : String
  member_accounts : Option (List String)
  accounts : Option (List String)
  pattern_type : Option String
  type : Option String
  risk_score : Option ℚ
  score : Option ℚ
  deriving DecidableEq

/-- The analysis summary block; every field is read through `?.` and `??`. -/
structure Summary where
  total_accounts_analyzed : Option ℕ
  suspicious_accounts_flagged : Option ℕ
  fraud_rings_detected : Option ℕ
  processing_time_seconds : Option ℚ
  deriving DecidableEq

/-- The exported `ring_id` of an account: `a.ring_id || "STANDALONE"`
(JsonOutputPanel.jsx line 71). -/
def exportedRingId (a : Account) : String :=
  jsStrOr a.ring_id "STANDALONE"

/-- The exported `pattern_type` of a ring:
`r.pattern_type || r.type || 'unknown'` (JsonOutputPanel.jsx line 76). -/
def exportedPatternType (r : Ring) : String :=
  jsStrOr r.pattern_type (jsStrOr r.type "unknown")

/-- The account object built by `JsonOutputPanel.outputJson` for the exported
JSON (JsonOutputPanel.jsx lines 67-72): exactly the keys `account_id`,
`suspicion_score`, `detected_patterns`, `ring_id`. -/
def exportAccount (a : Account) : Jval :=
  .obj [
    ("account_id", .str a.account_id),
    ("suspicion_score", .num (a.suspicion_score.getD (a.score.getD 0))),
    ("detected_patterns",
      .arr ((a.detected_patterns.getD (a.patterns.getD [])).map .str)),
    ("ring_id", .str (exportedRingId a))
  ]

/-- The ring object built by `JsonOutputPanel.outputJson`
(JsonOutputPanel.jsx lines 73-78). -/
def exportRing (r : Ring) : Jval :=
  .obj [
    ("ring_id", .str r.ring_id),
    ("member_accounts",
      .arr ((r.member_accounts.getD (r.accounts.getD [])).map .str)),
    ("pattern_type", .str (exportedPatternType r)),
    ("risk_score", .num (r.risk_score.getD (r.score.getD 0)))
  ]

/-- One QAOA circuit result card consumed by `QuantumPanel.CircuitCard`. -/
structure CircuitResult where
  ring_id : String
  error : Option String
  suspicious_set : Option (List String)
  deriving DecidableEq

/-- The `quantum_analysis` block consumed by `QuantumPanel`. -/
structure QuantumData where
  available : Bool
  message : Option String
  results : Option (List CircuitResult)
  circuits_executed : Option ℕ
  deriving DecidableEq

/-- One ranked account in a centrality list of the disruption output. -/
structure RankedAccount where
  account_id : String
  rscore : ℚ
  deriving DecidableEq

/-- The `network_stats` block of the disruption output, with exactly the
fields `DisruptionPanel` reads (DisruptionPanel.jsx lines 54-104). -/
structure NetworkStats where
  articulation_points : List String
  articulation_point_count : ℕ
  top_betweenness : List RankedAccount
  top_degree_centrality : List RankedAccount
  top_closeness : List RankedAccount
  deriving DecidableEq

/-- A per-ring disruption strategy (only the fields the claims touch). -/
structure Strategy where
  ring_id : String
  max_disruption_pct : ℚ
  resilience_score : ℚ
  deriving DecidableEq

/-- The `disruption` block consumed by `DisruptionPanel`. -/
structure DisruptionData where
  strategies : Option (List Strategy)
  network_stats : Option NetworkStats
  deriving DecidableEq

/-- A node of the `graph_data` payload consumed by `GraphView`. -/
structure GNode where
  id : String
  nscore : ℚ
  ring_id : Option String
  suspicious : Bool
  deriving DecidableEq

/-- The field names of the `network_stats` record, i.e. exactly what the
disruption output's network statistics contain as consumed by the frontend. -/
def networkStatsFields : List String :=
  ["articulation_points", "articulation_point_count",
   "top_betweenness", "top_degree_centrality", "top_closeness"]

/-- The three centrality cards `DisruptionPanel` renders from `network_stats`
(DisruptionPanel.jsx lines 54-82): title paired with the ranking displayed. -/
def disruptionCentralitySections (ns : NetworkStats) :
    List (String × List RankedAccount) :=
  [("Betweenness Centrality", ns.top_betweenness),
   ("Degree Centrality", ns.top_degree_centrality),
   ("Closeness Centrality", ns.top_closeness)]

/-- The full analysis result object delivered by `/api/analyze` and held in
`App`'s state; later-stage blocks are optional. -/
structure Results where
  suspicious_accounts : Option (List Account)
  fraud_rings : Option (List Ring)
  summary : Option Summary
  quantum_analysis : Option QuantumData
  disruption : Option DisruptionData

/-- The function `JsonOutputPanel.outputJson` (JsonOutputPanel.jsx lines 64-86): the export
object built "in the required format" from an analysis result. -/
def outputJson (r : Results) : Jval :=
  .obj [
    ("suspicious_accounts", .arr ((r.suspicious_accounts.getD []).map exportAccount)),
    ("fraud_rings", .arr ((r.fraud_rings.getD []).map exportRing)),
    ("summary", .obj [
      ("total_accounts_analyzed",
        .num ((r.summary.bind (·.total_accounts_analyzed)).getD 0 : ℕ)),
      ("suspicious_accounts_flagged",
        .num ((r.summary.bind (·.suspicious_accounts_flagged)).getD
          (r.suspicious_accounts.getD []).length : ℕ)),
      ("fraud_rings_detected",
        .num ((r.summary.bind (·.fraud_rings_detected)).getD
          (r.fraud_rings.getD []).length : ℕ)),
      ("processing_time_seconds",
        .num ((r.summary.bind (·.processing_time_seconds)).getD 0))
    ])
  ]

/-- The text of one sub-score cell of `AccountsTable` (`cs.graph ?? '—'`,
AccountsTable.jsx lines 58-60). -/
def scoreCellText (o : Option ℚ) : String :=
  match o with
  | some v => toString v
  | none => "—"

/-- The three component-score cells (`Graph`, `ML`, `Quantum`) `AccountsTable`
renders for an account row (AccountsTable.jsx lines 42, 58-60);
`cs = a.component_scores || {}`. -/
def accountsTableComponentCells (a : Account) : List String :=
  let cs := a.component_scores.getD ⟨none, none, none⟩
  [scoreCellText cs.graph, scoreCellText cs.ml, scoreCellText cs.quantum]

/-- The background class of `ScorePill` (AccountsTable.jsx lines 72-79):
`score >= 70 ? red : score >= 40 ? orange : yellow`. -/
def scorePillColor (s : ℚ) : String :=
  if 70 ≤ s then "bg-red-500"
  else if 40 ≤ s then "bg-orange-500"
  else "bg-yellow-500"

/-- Account classification labels of the Aggregator. -/
inductive Classification where
  | confirmedMule
  | suspicious
  | clean
  deriving DecidableEq

/-- Modelled from the spec: the Aggregator (absent from the snapshot; its
classification thresholds are documented in README.md "Classification
Thresholds": `final_score >= 60 → Confirmed Mule; >= 25 → Suspicious;
else Clean`). -/
def classify (s : ℚ) : Classification :=
  if 60 ≤ s then .confirmedMule
  else if 25 ≤ s then .suspicious
  else .clean

/-- Modelled from the spec: the PartitionOptimizer's sample budget (absent from
the snapshot; README.md documents `SHOTS = 512  # Measurement repetitions`). -/
def qaoaShots : ℕ := 512

/-- Modelled from the spec: the PartitionOptimizer's circuit depth (README.md
documents `QAOA_LAYERS = 1  # Single QAOA layer (p=1)`). -/
def qaoaLayers : ℕ := 1

/-- The shot count hard-coded into the Configuration cell of `QuantumPanel`
("2 layers · 1024 shots", QuantumPanel.jsx line 40). -/
def quantumPanelDisplayedShots : ℕ := 1024

/-- The layer count hard-coded into the Configuration cell of `QuantumPanel`
(QuantumPanel.jsx line 40). -/
def quantumPanelDisplayedLayers : ℕ := 2

/-- The Configuration text rendered by `QuantumPanel` (QuantumPanel.jsx
line 40, with the `&middot;` entity rendered). -/
def quantumPanelConfigText : String :=
  toString quantumPanelDisplayedLayers ++ " layers · " ++
    toString quantumPanelDisplayedShots ++ " shots"

/-- The colour-class lookup of `PatternBadge` (DisruptionPanel.jsx lines
817-826): the pattern-type identifiers the frontend recognises. -/
def patternColors (p : String) : Option String :=
  if p = "cycle" then some "text-cyan-400 bg-cyan-500/10 border-cyan-500/30"
  else if p = "cyclic_flow" then some "text-red-400 bg-red-500/10 border-red-500/30"
  else if p = "smurfing_fan_in" then some "text-orange-400 bg-orange-500/10 border-orange-500/30"
  else if p = "smurfing_fan_out" then some "text-orange-400 bg-orange-500/10 border-orange-500/30"
  else if p = "shell_network" then some "text-yellow-400 bg-yellow-500/10 border-yellow-500/30"
  else if p = "shell_chain" then some "text-yellow-400 bg-yellow-500/10 border-yellow-500/30"
  else none

/-- The class `PatternBadge` actually applies:
`colors[pattern] || 'text-gray-400 bg-gray-500/10 border-gray-500/30'`. -/
def patternBadgeCls (p : String) : String :=
  (patternColors p).getD "text-gray-400 bg-gray-500/10 border-gray-500/30"

/-- The pattern-type identifiers with a recognised badge style. -/
def recognizedPatterns : List String :=
  ["cycle", "cyclic_flow", "smurfing_fan_in", "smurfing_fan_out",
   "shell_network", "shell_chain"]

/-- The spec's four pattern families; each recognised identifier belongs to
exactly one of them. -/
inductive PatternFamily where
  | cycleFam
  | fanIn
  | fanOut
  | shell
  deriving DecidableEq

/-- Classification of the frontend's pattern identifiers into the spec's four
families (`pattern_type ∈ {cycle, fan_in, fan_out, shell}` read as families). -/
def patternFamily (p : String) : Option PatternFamily :=
  if p = "cycle" ∨ p = "cyclic_flow" then some .cycleFam
  else if p = "smurfing_fan_in" then some .fanIn
  else if p = "smurfing_fan_out" then some .fanOut
  else if p = "shell_network" ∨ p = "shell_chain" then some .shell
  else none

/-- What a tab body renders: the data-backed content or the stage-unavailable
placeholder notice. -/
inductive PanelRender where
  | placeholder
  | content
  deriving DecidableEq

/-- The dispatch of `QuantumPanel` (QuantumPanel.jsx lines 4-12): the placeholder is
shown exactly when `!data?.available`. -/
def quantumPanelRender (d : Option QuantumData) : PanelRender :=
  match d with
  | none => .placeholder
  | some q => if q.available then .content else .placeholder

/-- The dispatch of `DisruptionPanel` (DisruptionPanel.jsx lines 6-15): the
placeholder is shown exactly when `!data || !data.strategies`. -/
def disruptionPanelRender (d : Option DisruptionData) : PanelRender :=
  match d with
  | none => .placeholder
  | some dd =>
    match dd.strategies with
    | none => .placeholder
    | some _ => .content

/-- The accounts `App` hands to `AccountsTable` (AgentsChart.jsx source bundle,
App lines 212-222): the suspects tab depends only on `suspicious_accounts`. -/
def appAccountsInput (r : Results) : Option (List Account) :=
  r.suspicious_accounts

/-- The y-axis cap of the agent-score chart (`scales.y.max`, AgentsChart.jsx
lines 82-87). -/
def agentsChartYMax : ℚ := 100

/-- The guard of `WhatIfSimulator.runSimulation` (WhatIfSimulator.jsx lines 31-53): with an
empty selection the function returns without issuing a request; otherwise it
POSTs `{nodes: [...selectedNodes]}`. -/
def runSimulationRequest (sel : List String) : Option (List String) :=
  if sel.isEmpty then none else some sel

/-- The validity test of `GraphView.searchIndex` for grouping a node under a ring
(GraphView.jsx line 33): `n.ring_id && n.ring_id !== 'N/A' &&
n.ring_id !== 'STANDALONE'`. -/
def hasRealRing (n : GNode) : Bool :=
  match n.ring_id with
  | none => false
  | some r => r ≠ "" ∧ r ≠ "N/A" ∧ r ≠ "STANDALONE"

/-- One step of `GraphView.searchIndex`'s ring grouping: a node is added to its
ring's member list only when `hasRealRing` holds (GraphView.jsx lines 31-38). -/
def ringGroupStep (acc : List (String × List String)) (n : GNode) :
    List (String × List String) :=
  if hasRealRing n then
    match n.ring_id with
    | some rid =>
      if (acc.find? (fun g => g.1 = rid)).isSome then
        acc.map (fun g => if g.1 = rid then (g.1, g.2 ++ [n.id]) else g)
      else acc ++ [(rid, [n.id])]
    | none => acc
  else acc

/-- The ring groups of `GraphView.searchIndex` built over the node list. -/
def ringGroups (nodes : List GNode) : List (String × List String) :=
  nodes.foldl ringGroupStep []

/-- Modelled from the spec: the Aggregator's weighting (absent from the
snapshot; README.md documents
`final_score = 0.40*graph + 0.35*ml + 0.25*quantum`, redistributed to
`0.55*graph + 0.45*ml` when the quantum score is absent). -/
def finalScore (g m : ℚ) (q : Option ℚ) : ℚ :=
  match q with
  | some qs => 40 / 100 * g + 35 / 100 * m + 25 / 100 * qs
  | none => 55 / 100 * g + 45 / 100 * m

/-- A directed edge of the transaction graph (`e.from`/`e.to` in the JS
payload; `from` is a Lean keyword, so the fields are `src`/`dst`). -/
structure GEdge where
  src : String
  dst : String
  total_amount : ℚ
  tx_count : ℕ
  deriving DecidableEq

/-- The transaction graph the CounterfactualSimulator operates on. -/
structure Graph where
  nodes : List String
  edges : List GEdge
  deriving DecidableEq

/-- Modelled from the spec: functional node removal of the
CounterfactualSimulator (absent from the snapshot) — drop the removed nodes
and every edge touching them, leaving the input untouched. -/
def removeNodes (g : Graph) (sel : List String) : Graph :=
  { nodes := g.nodes.filter (fun n => !sel.contains n),
    edges := g.edges.filter (fun e => !sel.contains e.src && !sel.contains e.dst) }

/-- Merges the (undirected) components containing `a` and `b`. -/
def unionIn (cs : List (List String)) (a b : String) : List (List String) :=
  match cs.find? (fun c => c.contains a) with
  | none => cs
  | some ca =>
    match cs.find? (fun c => c.contains b) with
    | none => cs
    | some cb =>
      if ca = cb then cs
      else (ca ++ cb) :: cs.filter (fun c => c ≠ ca ∧ c ≠ cb)

/-- Modelled from the spec: the weakly-connected components used by the
snapshot statistics, built by starting from singletons and merging along every
edge of the undirected projection. -/
def componentsOf (g : Graph) : List (List String) :=
  g.edges.foldl (fun acc e => unionIn acc e.src e.dst) (g.nodes.map (fun n => [n]))

/-- Modelled from the spec: graph density for the snapshot
(`edges / (n * (n - 1))` over the directed graph, 0 for trivial graphs). -/
def densityOf (g : Graph) : ℚ :=
  let n := g.nodes.length
  if n ≤ 1 then 0 else (g.edges.length : ℚ) / ((n : ℚ) * ((n : ℚ) - 1))

/-- Modelled from the spec: average degree for the snapshot
(`edges / nodes`, 0 for the empty graph). -/
def avgDegreeOf (g : Graph) : ℚ :=
  if g.nodes.length = 0 then 0 else (g.edges.length : ℚ) / (g.nodes.length : ℚ)

/-- A before/after snapshot of the simulator: exactly the statistics the
what-if results view renders (`nodes`, `edges`, `components`,
`largest_component`, `density`, `avg_degree`; WhatIfSimulator.jsx
lines 347-362). -/
structure Snapshot where
  snodes : ℕ
  sedges : ℕ
  components : ℕ
  largest_component : ℕ
  density : ℚ
  avg_degree : ℚ
  deriving DecidableEq

/-- Modelled from the spec: the snapshot statistics of a graph state. -/
def snapshot (g : Graph) : Snapshot :=
  { snodes := g.nodes.length,
    sedges := g.edges.length,
    components := (componentsOf g).length,
    largest_component := ((componentsOf g).map List.length).foldl max 0,
    density := densityOf g,
    avg_degree := avgDegreeOf g }

/-- One delta metric of the simulation result: absolute change and
percentage change. -/
structure DeltaEntry where
  change : ℚ
  change_pct : ℚ
  deriving DecidableEq

/-- Modelled from the spec: a percentage delta between a before-value and an
after-value. -/
def deltaOf (b a : ℚ) : DeltaEntry :=
  { change := a - b,
    change_pct := if b = 0 then 0 else (a - b) / b * 100 }

/-- The delta block of a simulation result, one entry per snapshot statistic. -/
structure SimDelta where
  dnodes : DeltaEntry
  dedges : DeltaEntry
  dcomponents : DeltaEntry
  dlargest : DeltaEntry
  ddensity : DeltaEntry
  davg_degree : DeltaEntry
  deriving DecidableEq

/-- The all-zero delta block. -/
def zeroDelta : SimDelta :=
  ⟨⟨0, 0⟩, ⟨0, 0⟩, ⟨0, 0⟩, ⟨0, 0⟩, ⟨0, 0⟩, ⟨0, 0⟩⟩

/-- Modelled from the spec: the CounterfactualSimulator's before/after/delta
computation for a removal set. -/
def simulate (g : Graph) (sel : List String) : Snapshot × Snapshot × SimDelta :=
  let b := snapshot g
  let a := snapshot (removeNodes g sel)
  (b, a,
    { dnodes := deltaOf b.snodes a.snodes,
      dedges := deltaOf b.sedges a.sedges,
      dcomponents := deltaOf b.components a.components,
      dlargest := deltaOf b.largest_component a.largest_component,
      ddensity := deltaOf b.density a.density,
      davg_degree := deltaOf b.avg_degree a.avg_degree })

/-! ### The `SyntaxJson` tokenizer (JsonOutputPanel.jsx lines 4-55)

The component repeatedly `exec`s the regex
`("(?:\\.|[^"\\])*")\s*(:)?|(-?\d+(?:\.\d+)?(?:[eE][+-]?\d+)?)|(\btrue\b|\bfalse\b)|(\bnull\b)|([{}\[\],])`
over the input, emitting the gap before each match as a `ws` token and the
matched group as a typed token.  The alternatives start with disjoint
characters, so leftmost matching is embedded as a deterministic left-to-right
scan; unmatched characters accumulate into the pending gap.  Note that the
first alternative's `\s*` consumes — without re-emitting — any whitespace
directly after a string literal. -/

/-- JavaScript `\s`: the ASCII whitespace characters, NBSP, the Unicode
space separators (U+1680, U+2000-U+200A, U+202F, U+205F, U+3000), the line
separators U+2028/U+2029 and the byte-order mark U+FEFF. -/
def isWsChar (c : Char) : Bool :=
  c = ' ' || c = '\t' || c = '\n' || c = '\r' ||
    c = '\x0b' || c = '\x0c' || c = '\u00A0' || c = '\u1680' ||
    (0x2000 ≤ c.val && c.val ≤ 0x200A) ||
    c = '\u2028' || c = '\u2029' || c = '\u202F' || c = '\u205F' ||
    c = '\u3000' || c = '\uFEFF'

/-- JavaScript line terminators, which the dot of the escape alternative
`\\.` does not match. -/
def isLineTerm (c : Char) : Bool :=
  c = '\n' || c = '\r' || c = '\u2028' || c = '\u2029'

/-- JavaScript `\w`, used by the `\b` boundaries of the keyword alternatives. -/
def isWordChar (c : Char) : Bool :=
  c.isAlphanum || c = '_'

/-- The body of the string alternative `(?:\\.|[^"\\])*` followed by the
closing quote: returns the content characters and the remainder after the
closing `"`, or `none` when no such literal starts here.  A backslash must be
followed by a character the dot matches — a line terminator after a backslash
makes both branches of the group fail, so the whole literal match fails. -/
def strContent : List Char → Option (List Char × List Char)
  | [] => none
  | '"' :: rest => some ([], rest)
  | '\\' :: c :: rest =>
    if isLineTerm c then none
    else (strContent rest).map (fun p => ('\\' :: c :: p.1, p.2))
  | ['\\'] => none
  | c :: rest =>
    (strContent rest).map (fun p => (c :: p.1, p.2))

/-- The optional leading sign `-?` of the number alternative: the matched
prefix and the remainder. -/
def numSign (cs : List Char) : List Char × List Char :=
  match cs with
  | '-' :: r => (['-'], r)
  | _ => ([], cs)

/-- The optional fraction `(?:\.\d+)?` of the number alternative. -/
def numFrac (cs : List Char) : List Char × List Char :=
  match cs with
  | '.' :: r =>
    let fs := r.takeWhile Char.isDigit
    if fs.isEmpty then ([], cs) else ('.' :: fs, r.dropWhile Char.isDigit)
  | _ => ([], cs)

/-- The optional exponent `(?:[eE][+-]?\d+)?` of the number alternative. -/
def numExp (cs : List Char) : List Char × List Char :=
  match cs with
  | c :: r =>
    if c = 'e' || c = 'E' then
      let sg : List Char × List Char :=
        match r with
        | s :: r2 => if s = '+' || s = '-' then ([s], r2) else ([], s :: r2)
        | [] => ([], [])
      let es := sg.2.takeWhile Char.isDigit
      if es.isEmpty then ([], cs) else (c :: (sg.1 ++ es), sg.2.dropWhile Char.isDigit)
    else ([], cs)
  | [] => ([], cs)

/-- The number alternative `-?\d+(?:\.\d+)?(?:[eE][+-]?\d+)?`: returns the
matched text and the remainder, or `none` when no number starts here. -/
def parseNumber (cs : List Char) : Option (List Char × List Char) :=
  let sp := numSign cs
  let ds := sp.2.takeWhile Char.isDigit
  if ds.isEmpty then none
  else
    let fr := numFrac (sp.2.dropWhile Char.isDigit)
    let ex := numExp fr.2
    some (sp.1 ++ ds ++ fr.1 ++ ex.1, ex.2)

/-- Drops `pre` from the front of `cs`, or fails. -/
def dropLiteral : List Char → List Char → Option (List Char)
  | [], cs => some cs
  | p :: ps, c :: cs => if c = p then dropLiteral ps cs else none
  | _ :: _, [] => none

/-- The `\b` on the left of a keyword: the previous character (if any) is not
a word character. -/
def boundaryOk (prev : Option Char) : Bool :=
  match prev with
  | none => true
  | some c => !isWordChar c

/-- The `\b` on the right of a keyword: the next character (if any) is not a
word character. -/
def afterBoundary : List Char → Bool
  | [] => true
  | c :: _ => !isWordChar c

/-- The token types `SyntaxJson` assigns. -/
inductive TokType where
  | key
  | str
  | num
  | bool
  | null
  | punct
  | ws
  deriving DecidableEq

/-- A token of `SyntaxJson`: type and text. -/
structure Tok where
  ttype : TokType
  text : List Char
  deriving DecidableEq

/-- Matches `\btrue\b|\bfalse\b` or `\bnull\b` at the current position (the left
boundary is checked by the caller). -/
def keywordAt (cs : List Char) : Option (TokType × List Char × List Char) :=
  match dropLiteral ['t', 'r', 'u', 'e'] cs with
  | some r =>
    if afterBoundary r then some (.bool, ['t', 'r', 'u', 'e'], r) else none
  | none =>
    match dropLiteral ['f', 'a', 'l', 's', 'e'] cs with
    | some r =>
      if afterBoundary r then some (.bool, ['f', 'a', 'l', 's', 'e'], r) else none
    | none =>
      match dropLiteral ['n', 'u', 'l', 'l'] cs with
      | some r =>
        if afterBoundary r then some (.null, ['n', 'u', 'l', 'l'], r) else none
      | none => none

/-- Emits the pending gap as a `ws` token
(`parts.push({type:'ws', text: json.slice(last, m.index)})`). -/
def flushGap (gap : List Char) : List Tok :=
  if gap.isEmpty then [] else [⟨.ws, gap⟩]

/-- Structural characters `[{}\[\],]`. -/
def isStructural (c : Char) : Bool :=
  c = '{' || c = '}' || c = '[' || c = ']' || c = ','

/-- The tokenizer loop of `SyntaxJson`.  `prev` is the character before the
scan position (for `\b`), `gap` the unmatched characters pending as
whitespace.  The fuel exceeds the input length, so the fuel-exhaustion arm is
never taken. -/
def scan : ℕ → Option Char → List Char → List Char → List Tok
  | 0, _, gap, rest => flushGap (gap ++ rest)
  | _ + 1, _, gap, [] => flushGap gap
  | fuel + 1, prev, gap, c :: rest =>
    if c = '"' then
      match strContent rest with
      | some (content, rest2) =>
        let lit := '"' :: (content ++ ['"'])
        let wsp := rest2.takeWhile isWsChar
        match rest2.dropWhile isWsChar with
        | ':' :: rest4 =>
          flushGap gap ++ [⟨.key, lit⟩, ⟨.punct, [':']⟩] ++
            scan fuel (some ':') [] rest4
        | rest3 =>
          flushGap gap ++ [⟨.str, lit⟩] ++
            scan fuel (some (wsp.getLastD '"')) [] rest3
      | none => scan fuel (some c) (gap ++ [c]) rest
    else if c.isDigit || c = '-' then
      match parseNumber (c :: rest) with
      | some (txt, rest2) =>
        flushGap gap ++ [⟨.num, txt⟩] ++
          scan fuel (some (txt.getLastD c)) [] rest2
      | none => scan fuel (some c) (gap ++ [c]) rest
    else
      match (if boundaryOk prev then keywordAt (c :: rest) else none) with
      | some (tt, txt, rest2) =>
        flushGap gap ++ [⟨tt, txt⟩] ++
          scan fuel (some (txt.getLastD c)) [] rest2
      | none =>
        if isStructural c then
          flushGap gap ++ [⟨.punct, [c]⟩] ++ scan fuel (some c) [] rest
        else scan fuel (some c) (gap ++ [c]) rest

/-- The token list `SyntaxJson` produces for an input. -/
def tokenize (s : List Char) : List Tok :=
  scan (s.length + 1) none [] s

/-- Concatenation of the `text` fields of a token list. -/
def tokenTexts (ts : List Tok) : List Char :=
  (ts.map Tok.text).flatten

/-- The head of the remainder is not whitespace (vacuously true when empty). -/
def headNotWs (cs : List Char) : Bool :=
  match cs with
  | [] => true
  | d :: _ => !isWsChar d

/-- Fuel-indexed check that no complete string literal is immediately followed
by a whitespace character (the situation in which the tokenizer's `\s*` drops
input).  Exact whenever the fuel exceeds the input length. -/
def noWsAfterStrAux : ℕ → List Char → Bool
  | 0, _ => true
  | _ + 1, [] => true
  | fuel + 1, c :: rest =>
    if c = '"' then
      match strContent rest with
      | some (_, rest2) => headNotWs rest2 && noWsAfterStrAux fuel rest2
      | none => noWsAfterStrAux fuel rest
    else noWsAfterStrAux fuel rest

/-- No string literal of `s` is immediately followed by whitespace. -/
def noWsAfterStr (s : List Char) : Bool :=
  noWsAfterStrAux (s.length + 1) s

/-! ### Helper lemmas about the tokenizer -/

/-- A successful string-literal parse splits the input exactly. -/
theorem strContent_eq : ∀ (cs : List Char) (content rest : List Char),
    strContent cs = some (content, rest) → cs = content ++ '"' :: rest := by
  intro cs
  induction cs using strContent.induct with
  | case1 => intro content rest h; simp [strContent] at h
  | case2 rest => intro content r h; simp [strContent] at h; simp [h.1.symm, h.2.symm]
  | case3 c rest hlt =>
    intro content r h
    simp [strContent, hlt] at h
  | case4 c rest hlt ih =>
    intro content r h
    have hstep : strContent ('\\' :: c :: rest) =
        (strContent rest).map (fun p => ('\\' :: c :: p.1, p.2)) := by
      simp [strContent, hlt]
    rw [hstep] at h
    cases hsc : strContent rest with
    | none => rw [hsc] at h; simp at h
    | some p =>
      obtain ⟨p1, p2⟩ := p
      rw [hsc] at h
      simp only [Option.map_some'] at h
      injection h with h1
      injection h1 with hcontent hrest
      subst hcontent
      subst hrest
      rw [ih p1 p2 hsc]
      simp
  | case5 => intro content rest h; simp [strContent] at h
  | case6 c rest h1 h2 h3 ih =>
    intro content r h
    simp only [strContent, Option.map_eq_some'] at h
    obtain ⟨⟨p1, p2⟩, hp, heq⟩ := h
    cases heq
    simpa using ih p1 p2 hp

/-- The sign split reassembles the input. -/
theorem numSign_append (cs : List Char) :
    (numSign cs).1 ++ (numSign cs).2 = cs := by
  unfold numSign
  split <;> simp

/-- The fraction split reassembles the input. -/
theorem numFrac_append (cs : List Char) :
    (numFrac cs).1 ++ (numFrac cs).2 = cs := by
  unfold numFrac
  split
  next r =>
    by_cases hfs : (r.takeWhile Char.isDigit).isEmpty <;>
      simp [hfs, List.takeWhile_append_dropWhile]
  next => simp

/-- The exponent split reassembles the input. -/
theorem numExp_append (cs : List Char) :
    (numExp cs).1 ++ (numExp cs).2 = cs := by
  unfold numExp
  split
  next c r =>
    split
    · split
      next s r2 =>
        split
        · by_cases hes : (r2.takeWhile Char.isDigit).isEmpty <;>
            simp [hes, List.takeWhile_append_dropWhile]
        · by_cases hes : ((s :: r2).takeWhile Char.isDigit).isEmpty <;>
            simp [hes, List.takeWhile_append_dropWhile]
      next =>
        by_cases hes : (([] : List Char).takeWhile Char.isDigit).isEmpty <;>
          simp [hes]
    · simp
  next => simp

/-- A successful number parse splits the input exactly. -/
theorem parseNumber_append {cs txt rest : List Char}
    (h : parseNumber cs = some (txt, rest)) : cs = txt ++ rest := by
  unfold parseNumber at h
  simp only [] at h
  split at h
  · exact absurd h (by simp)
  · injection h with h1
    injection h1 with htxt hrest
    subst htxt
    subst hrest
    calc cs = (numSign cs).1 ++ (numSign cs).2 := (numSign_append cs).symm
      _ = (numSign cs).1 ++ ((numSign cs).2.takeWhile Char.isDigit ++
            (numSign cs).2.dropWhile Char.isDigit) := by
            rw [List.takeWhile_append_dropWhile]
      _ = (numSign cs).1 ++ ((numSign cs).2.takeWhile Char.isDigit ++
            ((numFrac ((numSign cs).2.dropWhile Char.isDigit)).1 ++
             (numFrac ((numSign cs).2.dropWhile Char.isDigit)).2)) := by
            rw [numFrac_append]
      _ = (numSign cs).1 ++ ((numSign cs).2.takeWhile Char.isDigit ++
            ((numFrac ((numSign cs).2.dropWhile Char.isDigit)).1 ++
             ((numExp (numFrac ((numSign cs).2.dropWhile Char.isDigit)).2).1 ++
              (numExp (numFrac ((numSign cs).2.dropWhile Char.isDigit)).2).2))) := by
            rw [numExp_append]
      _ = _ := by simp [List.append_assoc]

/-- The remainder of a successful string-literal parse is strictly shorter. -/
theorem strContent_len {cs content rest : List Char}
    (h : strContent cs = some (content, rest)) : rest.length < cs.length := by
  have := strContent_eq cs content rest h
  subst this
  simp only [List.length_append, List.length_cons]
  omega

/-- Characters of the sign prefix. -/
theorem numSign_mem {cs : List Char} {x : Char} (hx : x ∈ (numSign cs).1) :
    x = '-' := by
  unfold numSign at hx
  split at hx <;> simp_all

/-- Characters of the fraction prefix are `.` or digits. -/
theorem numFrac_mem {cs : List Char} {x : Char} (hx : x ∈ (numFrac cs).1) :
    x = '.' ∨ x.isDigit := by
  unfold numFrac at hx
  split at hx
  next r =>
    by_cases hfs : (r.takeWhile Char.isDigit).isEmpty <;> simp [hfs] at hx
    rcases hx with hx | hx
    · exact Or.inl hx
    · exact Or.inr (List.mem_takeWhile_imp hx)
  next => simp at hx

/-- Characters of the exponent prefix are `e`, `E`, a sign, or digits. -/
theorem numExp_mem {cs : List Char} {x : Char} (hx : x ∈ (numExp cs).1) :
    x = 'e' ∨ x = 'E' ∨ x = '+' ∨ x = '-' ∨ x.isDigit = true := by
  unfold numExp at hx
  split at hx
  next c r =>
    split at hx
    next hce =>
      rcases Bool.or_eq_true_iff.mp hce with hc | hc
      all_goals
        split at hx
        next s r2 =>
          split at hx
          next hs =>
            by_cases hes : (r2.takeWhile Char.isDigit).isEmpty <;> simp [hes] at hx
            rcases hx with hx | hx | hx
            · subst hx; simp_all
            · subst hx
              rcases Bool.or_eq_true_iff.mp hs with h | h <;> simp_all
            · exact Or.inr (Or.inr (Or.inr (Or.inr (List.mem_takeWhile_imp hx))))
          next hs =>
            by_cases hes : ((s :: r2).takeWhile Char.isDigit).isEmpty <;>
              simp [hes] at hx
            rcases hx with hx | hx
            · subst hx; simp_all
            · exact Or.inr (Or.inr (Or.inr (Or.inr (List.mem_takeWhile_imp hx))))
        next => simp at hx
    next => simp at hx
  next => simp at hx

/-- The text of a matched number never contains a double quote. -/
theorem parseNumber_no_quote {cs txt rest : List Char}
    (h : parseNumber cs = some (txt, rest)) : ∀ x ∈ txt, x ≠ '"' := by
  unfold parseNumber at h
  simp only [] at h
  split at h
  · exact absurd h (by simp)
  · injection h with h1
    injection h1 with htxt _
    subst htxt
    intro x hx
    simp only [List.mem_append] at hx
    rcases hx with ((hx | hx) | hx) | hx
    · rw [numSign_mem hx]; decide
    · have := List.mem_takeWhile_imp hx
      intro hq; rw [hq] at this; exact absurd this (by decide)
    · rcases numFrac_mem hx with h | h
      · rw [h]; decide
      · intro hq; rw [hq] at h; exact absurd h (by decide)
    · rcases numExp_mem hx with h | h | h | h | h
      · rw [h]; decide
      · rw [h]; decide
      · rw [h]; decide
      · rw [h]; decide
      · intro hq; rw [hq] at h; exact absurd h (by decide)

/-- A successful literal drop splits the input exactly. -/
theorem dropLiteral_append : ∀ (pre cs r : List Char),
    dropLiteral pre cs = some r → cs = pre ++ r := by
  intro pre
  induction pre with
  | nil =>
    intro cs r h
    simp [dropLiteral] at h
    simp [h]
  | cons p ps ih =>
    intro cs r h
    cases cs with
    | nil => simp [dropLiteral] at h
    | cons c cs' =>
      simp only [dropLiteral] at h
      split at h
      · next hc => simp [hc, ih cs' r h]
      · exact absurd h (by simp)

/-- A keyword match splits the input exactly and its text has no quote. -/
theorem keywordAt_spec {cs : List Char} {tt : TokType} {txt rest : List Char}
    (h : keywordAt cs = some (tt, txt, rest)) :
    cs = txt ++ rest ∧ ∀ x ∈ txt, x ≠ '"' := by
  unfold keywordAt at h
  split at h
  next r hdrop =>
    split at h
    · injection h with h1
      injection h1 with _ h2
      injection h2 with htxt hrest
      subst htxt; subst hrest
      exact ⟨dropLiteral_append _ _ _ hdrop, by decide⟩
    · exact absurd h (by simp)
  next =>
    split at h
    next r hdrop =>
      split at h
      · injection h with h1
        injection h1 with _ h2
        injection h2 with htxt hrest
        subst htxt; subst hrest
        exact ⟨dropLiteral_append _ _ _ hdrop, by decide⟩
      · exact absurd h (by simp)
    next =>
      split at h
      next r hdrop =>
        split at h
        · injection h with h1
          injection h1 with _ h2
          injection h2 with htxt hrest
          subst htxt; subst hrest
          exact ⟨dropLiteral_append _ _ _ hdrop, by decide⟩
        · exact absurd h (by simp)
      next => exact absurd h (by simp)

/-- Token-text concatenation distributes over list append. -/
theorem tokenTexts_append (a b : List Tok) :
    tokenTexts (a ++ b) = tokenTexts a ++ tokenTexts b := by
  simp [tokenTexts]

/-- The flushed gap contributes exactly the gap characters. -/
theorem tokenTexts_flushGap (gap : List Char) :
    tokenTexts (flushGap gap) = gap := by
  unfold flushGap
  by_cases h : gap.isEmpty
  · simp [h, tokenTexts, List.isEmpty_iff.mp h]
  · simp [h, tokenTexts]

/-- With sufficient fuel the whitespace-after-string check is fuel-independent. -/
theorem nwsAux_stable : ∀ (f : ℕ) (cs : List Char), cs.length < f →
    noWsAfterStrAux f cs = noWsAfterStr cs := by
  intro f
  induction f using Nat.strong_induction_on with
  | _ f ih =>
    intro cs hlen
    match f, cs with
    | 0, cs => omega
    | f' + 1, [] => simp [noWsAfterStrAux, noWsAfterStr]
    | f' + 1, c :: rest =>
      have hgoal : noWsAfterStr (c :: rest) =
          noWsAfterStrAux (rest.length + 1 + 1) (c :: rest) := by
        simp [noWsAfterStr]
      rw [hgoal]
      by_cases hc : c = '"'
      · subst hc
        cases hsc : strContent rest with
        | none => simp only [noWsAfterStrAux, hsc]
                  rw [ih f' (by omega) rest (by simp at hlen; omega),
                      ih (rest.length + 1) (by simp at hlen; omega) rest (by omega),
                      noWsAfterStr]
        | some p =>
          obtain ⟨content, rest2⟩ := p
          have hl2 : rest2.length < rest.length := strContent_len hsc
          simp only [noWsAfterStrAux, hsc]
          rw [ih f' (by omega) rest2 (by simp at hlen; omega),
              ih (rest.length + 1) (by simp at hlen; omega) rest2 (by omega)]
          simp
      · simp only [noWsAfterStrAux, hc, if_neg]
        rw [ih f' (by omega) rest (by simp at hlen; omega),
            ih (rest.length + 1) (by simp at hlen; omega) rest (by omega)]
        simp

/-- Stepping the check over a non-quote character. -/
theorem nws_cons_nonquote {c : Char} {rest : List Char} (hc : c ≠ '"') :
    noWsAfterStr (c :: rest) = noWsAfterStr rest := by
  have : noWsAfterStr (c :: rest) =
      noWsAfterStrAux (rest.length + 1 + 1) (c :: rest) := by simp [noWsAfterStr]
  rw [this]
  simp only [noWsAfterStrAux, hc, if_neg]
  exact nwsAux_stable _ _ (by omega)

/-- Stepping the check over an unterminated quote. -/
theorem nws_cons_quote_none {rest : List Char} (hsc : strContent rest = none) :
    noWsAfterStr ('"' :: rest) = noWsAfterStr rest := by
  have : noWsAfterStr ('"' :: rest) =
      noWsAfterStrAux (rest.length + 1 + 1) ('"' :: rest) := by simp [noWsAfterStr]
  rw [this]
  simp only [noWsAfterStrAux, hsc]
  exact nwsAux_stable _ _ (by omega)

/-- Stepping the check over a complete string literal. -/
theorem nws_cons_quote_some {rest content rest2 : List Char}
    (hsc : strContent rest = some (content, rest2)) :
    noWsAfterStr ('"' :: rest) = (headNotWs rest2 && noWsAfterStr rest2) := by
  have : noWsAfterStr ('"' :: rest) =
      noWsAfterStrAux (rest.length + 1 + 1) ('"' :: rest) := by simp [noWsAfterStr]
  rw [this]
  have hl2 : rest2.length < rest.length := strContent_len hsc
  simp only [noWsAfterStrAux, hsc]
  rw [nwsAux_stable _ _ (by omega)]
  simp

/-- The check passes unchanged over a block of non-quote characters. -/
theorem nws_append_nonquote : ∀ (xs rest : List Char),
    (∀ x ∈ xs, x ≠ '"') →
    noWsAfterStr (xs ++ rest) = noWsAfterStr rest := by
  intro xs
  induction xs with
  | nil => intro rest _; rfl
  | cons x xs' ih =>
    intro rest hx
    rw [List.cons_append, nws_cons_nonquote (hx x (by simp)),
        ih rest (fun y hy => hx y (by simp [hy]))]

/-- Core round-trip invariant of the scanner: while no string literal is
followed by whitespace, every consumed character is re-emitted. -/
theorem scan_concat : ∀ (fuel : ℕ) (prev : Option Char) (gap cs : List Char),
    noWsAfterStr cs = true → tokenTexts (scan fuel prev gap cs) = gap ++ cs := by
  intro fuel prev gap cs
  induction fuel, prev, gap, cs using scan.induct with
  | case1 x gap rest =>
    intro _
    simp only [scan]
    exact tokenTexts_flushGap _
  | case2 n x gap =>
    intro _
    simp only [scan]
    rw [tokenTexts_flushGap]
    simp
  | case3 fuel prev gap rest content rest2 hsc rest4 hdrop ih =>
    intro h
    rw [nws_cons_quote_some hsc, Bool.and_eq_true] at h
    obtain ⟨hhead, hnws2⟩ := h
    have hrest2 : rest2 = ':' :: rest4 := by
      cases rest2 with
      | nil => simp at hdrop
      | cons d t =>
        have hd : isWsChar d = false := by
          simpa [headNotWs] using hhead
        rw [List.dropWhile_cons, hd] at hdrop
        simpa using hdrop
    have hnws4 : noWsAfterStr rest4 = true := by
      rw [hrest2] at hnws2
      rwa [nws_cons_nonquote (by decide)] at hnws2
    have hr : rest = content ++ '"' :: rest2 := strContent_eq _ _ _ hsc
    simp only [scan, hsc, hdrop, if_true]
    rw [tokenTexts_append, tokenTexts_append, tokenTexts_flushGap, ih hnws4]
    simp [tokenTexts, hr, hrest2]
  | case4 fuel prev gap rest content rest2 hsc wsp hnocolon ih =>
    intro h
    rw [nws_cons_quote_some hsc, Bool.and_eq_true] at h
    obtain ⟨hhead, hnws2⟩ := h
    have hdrop : rest2.dropWhile isWsChar = rest2 := by
      cases rest2 with
      | nil => simp
      | cons d t =>
        have hd : isWsChar d = false := by
          simpa [headNotWs] using hhead
        rw [List.dropWhile_cons, hd]
        simp
    have hr : rest = content ++ '"' :: rest2 := strContent_eq _ _ _ hsc
    have hnwsd : noWsAfterStr (rest2.dropWhile isWsChar) = true := by
      rw [hdrop]; exact hnws2
    simp only [scan, hsc, if_true]
    rw [tokenTexts_append, tokenTexts_append, tokenTexts_flushGap, ih hnwsd, hdrop]
    simp [tokenTexts, hr]
  | case5 fuel prev gap rest hsc ih =>
    intro h
    rw [nws_cons_quote_none hsc] at h
    simp only [scan, hsc, if_true]
    rw [ih h]
    simp
  | case6 fuel prev gap c rest hc hnum content rest2 hpn ih =>
    intro h
    have happ : c :: rest = content ++ rest2 := parseNumber_append hpn
    have hnq : ∀ x ∈ content, x ≠ '"' := parseNumber_no_quote hpn
    have hnws2 : noWsAfterStr rest2 = true := by
      rw [happ, nws_append_nonquote content rest2 hnq] at h
      exact h
    simp only [scan, hc, hnum, hpn, if_neg, if_pos, ite_false, ite_true]
    rw [tokenTexts_append, tokenTexts_append, tokenTexts_flushGap, ih hnws2]
    simp [tokenTexts, happ]
  | case7 fuel prev gap c rest hc hnum hpn ih =>
    intro h
    rw [nws_cons_nonquote hc] at h
    simp only [scan, hc, hnum, hpn, if_neg, if_pos, ite_false, ite_true]
    rw [ih h]
    simp
  | case8 fuel prev gap c rest hc hnum tt txt rest2 hif ih =>
    intro h
    have hkw : keywordAt (c :: rest) = some (tt, txt, rest2) := by
      by_cases hb : boundaryOk prev = true
      · rwa [if_pos hb] at hif
      · rw [if_neg hb] at hif; exact absurd hif (by simp)
    obtain ⟨happ, hnq⟩ := keywordAt_spec hkw
    have hnws2 : noWsAfterStr rest2 = true := by
      rw [happ, nws_append_nonquote txt rest2 hnq] at h
      exact h
    simp only [scan, hc, hnum, hif, if_neg, if_pos, ite_false, ite_true,
      Bool.false_eq_true, if_false]
    rw [tokenTexts_append, tokenTexts_append, tokenTexts_flushGap, ih hnws2]
    simp [tokenTexts, happ]
  | case9 fuel prev gap c rest hc hnum hif hstruct ih =>
    intro h
    rw [nws_cons_nonquote hc] at h
    simp only [scan, hc, hnum, hif, hstruct, if_neg, if_pos, ite_false, ite_true,
      Bool.false_eq_true, if_false]
    rw [tokenTexts_append, tokenTexts_append, tokenTexts_flushGap, ih h]
    simp [tokenTexts]
  | case10 fuel prev gap c rest hc hnum hif hstruct ih =>
    intro h
    rw [nws_cons_nonquote hc] at h
    simp only [scan, hc, hnum, hif, hstruct, if_neg, if_pos, ite_false, ite_true,
      Bool.false_eq_true, if_false]
    rw [ih h]
    simp

/-- Whenever no string literal of the input is immediately followed by
whitespace, concatenating the token texts reproduces the input exactly. -/
theorem tokenize_concat {s : List Char} (h : noWsAfterStr s = true) :
    tokenTexts (tokenize s) = s := by
  unfold tokenize
  exact scan_concat _ none [] s h

/-! ### Claim-support lemmas -/

/-- Removing the empty node set leaves the graph unchanged. -/
theorem removeNodes_nil (g : Graph) : removeNodes g [] = g := by
  cases g with
  | mk ns es => simp [removeNodes]

/-- A delta between equal values is zero. -/
theorem deltaOf_self (x : ℚ) : deltaOf x x = ⟨0, 0⟩ := by
  simp [deltaOf]

/-- Nodes failing `hasRealRing` contribute nothing to the search-index ring
groups. -/
theorem ringGroups_skip (nodes : List GNode) :
    ringGroups nodes = ringGroups (nodes.filter hasRealRing) := by
  unfold ringGroups
  suffices h : ∀ acc, nodes.foldl ringGroupStep acc =
      (nodes.filter hasRealRing).foldl ringGroupStep acc from h []
  induction nodes with
  | nil => intro acc; rfl
  | cons n ns ih =>
    intro acc
    by_cases h : hasRealRing n
    · rw [List.filter_cons_of_pos h]
      simp only [List.foldl_cons]
      exact ih _
    · rw [List.filter_cons_of_neg (by simpa using h)]
      simp only [List.foldl_cons]
      have hstep : ringGroupStep acc n = acc := by simp [ringGroupStep, h]
      rw [hstep]
      exact ih _

/-! ### Claim theorems -/

/-- C1 (counterexample): the claim that every account record delivered to
consumers — including the exported JSON — carries `component_scores` is false:
the record `outputJson` builds for a fully-populated account (the README's own
example account) has no `component_scores` key. -/
theorem c1_export_lacks_component_scores :
    "component_scores" ∉ (exportAccount
      ⟨"ACC_001", some (875 / 10), none,
        some ["cycle_member", "high_ml_anomaly", "temporal_burst"], none,
        some "RING_001", some ⟨some 85, some 92, some 78⟩⟩).objKeys := by
  decide

/-- C1 (amended): in-app consumers receive accounts with `component_scores`
(the suspects table renders all three `graph`/`ml`/`quantum` cells), but the
exported JSON account record contains exactly `account_id`, `suspicion_score`,
`detected_patterns` and `ring_id` — `component_scores` is omitted. -/
theorem c1_account_export_keys (a : Account) :
    (exportAccount a).objKeys =
      ["account_id", "suspicion_score", "detected_patterns", "ring_id"] ∧
    "component_scores" ∉ (exportAccount a).objKeys ∧
    (accountsTableComponentCells a).length = 3 := by
  refine ⟨rfl, ?_, rfl⟩
  show "component_scores" ∉
    ["account_id", "suspicion_score", "detected_patterns", "ring_id"]
  decide

/-- C2 (code_bug): the PartitionOptimizer's documented sample budget is 512
shots with one QAOA layer (README.md), but the quantum analysis configuration
reported to the user is the hard-coded "2 layers · 1024 shots". -/
theorem c2_quantum_config_mismatch :
    qaoaShots = 512 ∧ qaoaLayers = 1 ∧
    quantumPanelDisplayedShots = 1024 ∧ quantumPanelDisplayedLayers = 2 ∧
    quantumPanelDisplayedShots ≠ qaoaShots ∧
    quantumPanelConfigText = "2 layers · 1024 shots" := by
  refine ⟨rfl, rfl, rfl, rfl, by decide, rfl⟩

/-- C3 (counterexample): the risk-band rendering does not respect the
classification boundaries: 60 classifies as Confirmed Mule and 59.999 as
Suspicious, yet `ScorePill` renders both with the same orange band (its bands
change at 70 and 40, not at 60 and 25). -/
theorem c3_pill_ignores_classification_boundary :
    classify 60 = Classification.confirmedMule ∧
    classify (59999 / 1000) = Classification.suspicious ∧
    scorePillColor 60 = scorePillColor (59999 / 1000) := by
  refine ⟨?_, ?_, ?_⟩ <;> norm_num [classify, scorePillColor]

/-- C3 (amended): classification follows the 60/25 boundaries exactly
(60 → Confirmed Mule, 59.999 → Suspicious, 25 → Suspicious, 24.999 → Clean),
while the `ScorePill` band rendering uses its own 70/40 boundaries, so the
rendering does not respect the classification boundaries. -/
theorem c3_thresholds :
    classify 60 = Classification.confirmedMule ∧
    classify (59999 / 1000) = Classification.suspicious ∧
    classify 25 = Classification.suspicious ∧
    classify (24999 / 1000) = Classification.clean ∧
    scorePillColor 70 = "bg-red-500" ∧
    scorePillColor (69999 / 1000) = "bg-orange-500" ∧
    scorePillColor 40 = "bg-orange-500" ∧
    scorePillColor (39999 / 1000) = "bg-yellow-500" ∧
    scorePillColor 60 = "bg-orange-500" ∧
    scorePillColor 25 = scorePillColor (24999 / 1000) := by
  refine ⟨?_, ?_, ?_, ?_, ?_, ?_, ?_, ?_, ?_, ?_⟩ <;>
    norm_num [classify, scorePillColor]

/-- C4 (counterexample): the identifier set is not exactly
`{cycle, fan_in, fan_out, shell}`: the frontend's badge styling recognises
`cyclic_flow` and `smurfing_fan_in` but none of `fan_in`, `fan_out`, `shell`,
and a ring exported without a pattern type carries the identifier `unknown`. -/
theorem c4_pattern_identifiers_defy_spec :
    patternColors "fan_in" = none ∧ patternColors "fan_out" = none ∧
    patternColors "shell" = none ∧
    (patternColors "smurfing_fan_in").isSome = true ∧
    (patternColors "cyclic_flow").isSome = true ∧
    exportedPatternType ⟨"RING_007", none, none, none, none, none, none⟩ =
      "unknown" ∧
    "unknown" ∉ ["cycle", "fan_in", "fan_out", "shell"] ∧
    "cyclic_flow" ∉ ["cycle", "fan_in", "fan_out", "shell"] := by
  decide

/-- C4 (amended): the ring pattern-type identifiers recognised by the system
are `cycle`, `cyclic_flow`, `smurfing_fan_in`, `smurfing_fan_out`,
`shell_network` and `shell_chain` — each falling into one of the spec's four
families (cycle, fan-in, fan-out, shell) — and a ring exported without any
pattern type carries the fallback identifier `unknown`. -/
theorem c4_pattern_families :
    recognizedPatterns = ["cycle", "cyclic_flow", "smurfing_fan_in",
      "smurfing_fan_out", "shell_network", "shell_chain"] ∧
    (recognizedPatterns.all fun p =>
      (patternColors p).isSome && (patternFamily p).isSome) = true ∧
    exportedPatternType ⟨"RING_007", none, none, none, none, none, none⟩ =
      "unknown" := by
  decide

/-- C5 (counterexample): the disruption output's network statistics contain no
pagerank ranking: the centrality sections rendered from `network_stats` are
betweenness, degree and closeness, and the record has no pagerank field. -/
theorem c5_no_pagerank_in_network_stats :
    (disruptionCentralitySections ⟨[], 0, [], [], []⟩).map Prod.fst =
      ["Betweenness Centrality", "Degree Centrality", "Closeness Centrality"] ∧
    "Pagerank Centrality" ∉
      (disruptionCentralitySections ⟨[], 0, [], [], []⟩).map Prod.fst ∧
    "PageRank Centrality" ∉
      (disruptionCentralitySections ⟨[], 0, [], [], []⟩).map Prod.fst ∧
    "top_pagerank" ∉ networkStatsFields := by
  decide

/-- C5 (amended): besides the articulation points, the disruption output's
network statistics contain the top accounts by betweenness, by degree
centrality and by closeness centrality — not a pagerank ranking. -/
theorem c5_network_stats_content (ns : NetworkStats) :
    (disruptionCentralitySections ns).map Prod.fst =
      ["Betweenness Centrality", "Degree Centrality", "Closeness Centrality"] ∧
    (disruptionCentralitySections ns).map Prod.snd =
      [ns.top_betweenness, ns.top_degree_centrality, ns.top_closeness] ∧
    networkStatsFields = ["articulation_points", "articulation_point_count",
      "top_betweenness", "top_degree_centrality", "top_closeness"] :=
  ⟨rfl, rfl, rfl⟩

/-- C6: stage isolation — replacing or removing the later-stage blocks
(`quantum_analysis`, `disruption`) changes neither the exported JSON nor the
accounts delivered to the suspects table, and a missing or unavailable later
stage renders as a placeholder rather than failing. -/
theorem c6_stage_isolation (r : Results) (q : Option QuantumData)
    (d : Option DisruptionData) :
    outputJson { r with quantum_analysis := q, disruption := d } =
      outputJson r ∧
    appAccountsInput { r with quantum_analysis := q, disruption := d } =
      appAccountsInput r ∧
    quantumPanelRender none = PanelRender.placeholder ∧
    quantumPanelRender (some ⟨false,
      some "Install qiskit + qiskit-aer for quantum features", none, none⟩) =
      PanelRender.placeholder ∧
    disruptionPanelRender none = PanelRender.placeholder ∧
    disruptionPanelRender (some ⟨none, none⟩) = PanelRender.placeholder ∧
    quantumPanelRender (some ⟨true, none, some [], some 0⟩) =
      PanelRender.content :=
  ⟨rfl, rfl, rfl, rfl, rfl, rfl, rfl⟩

/-- C7 (counterexample): an empty-set simulation request cannot actually be
issued through the what-if interface — `runSimulation` returns without issuing
a request when the selection is empty. -/
theorem c7_empty_request_not_issued :
    runSimulationRequest ([] : List String) = none := rfl

/-- C7 (amended): removing the empty node set is an identity of the
CounterfactualSimulator — every delta metric is zero and the after snapshot
equals the before snapshot — but the what-if interface refuses to issue an
empty-set request (only non-empty selections are posted). -/
theorem c7_empty_removal_zero_delta (g : Graph) (sel : List String)
    (h : sel = []) :
    (simulate g sel).2.2 = zeroDelta ∧
    (simulate g sel).2.1 = (simulate g sel).1 ∧
    runSimulationRequest sel = none ∧
    runSimulationRequest ["ACC_001"] = some ["ACC_001"] := by
  subst h
  refine ⟨?_, ?_, rfl, rfl⟩
  · simp [simulate, removeNodes_nil, zeroDelta, deltaOf_self]
  · simp [simulate, removeNodes_nil]

/-- C7 witness: the amended statement at a concrete two-node graph. -/
theorem c7_empty_removal_zero_delta_witness :
    (simulate ⟨["A", "B"], [⟨"A", "B", 1000, 1⟩]⟩ []).2.2 = zeroDelta ∧
    (simulate ⟨["A", "B"], [⟨"A", "B", 1000, 1⟩]⟩ []).2.1 =
      (simulate ⟨["A", "B"], [⟨"A", "B", 1000, 1⟩]⟩ []).1 ∧
    runSimulationRequest [] = none ∧
    runSimulationRequest ["ACC_001"] = some ["ACC_001"] :=
  c7_empty_removal_zero_delta ⟨["A", "B"], [⟨"A", "B", 1000, 1⟩]⟩ [] rfl

/-- C8: with graph and ml scores in [0,100] (and the quantum score in [0,100]
when present), the aggregated final score stays within [0,100] under both
weightings, and never exceeds the chart's y-axis cap of 100. -/
theorem c8_final_score_range (g m : ℚ) (q : Option ℚ)
    (hg0 : 0 ≤ g) (hg1 : g ≤ 100) (hm0 : 0 ≤ m) (hm1 : m ≤ 100)
    (hq : ∀ x, q = some x → 0 ≤ x ∧ x ≤ 100) :
    0 ≤ finalScore g m q ∧ finalScore g m q ≤ 100 ∧
    finalScore g m q ≤ agentsChartYMax := by
  cases q with
  | none =>
    unfold finalScore agentsChartYMax
    exact ⟨by linarith, by linarith, by linarith⟩
  | some x =>
    obtain ⟨hx0, hx1⟩ := hq x rfl
    unfold finalScore agentsChartYMax
    exact ⟨by linarith, by linarith, by linarith⟩

/-- C8 witness: the range theorem at concrete component scores. -/
theorem c8_final_score_range_witness :
    0 ≤ finalScore 80 50 (some 60) ∧ finalScore 80 50 (some 60) ≤ 100 ∧
    finalScore 80 50 (some 60) ≤ agentsChartYMax :=
  c8_final_score_range 80 50 (some 60) (by norm_num) (by norm_num)
    (by norm_num) (by norm_num)
    (by intro x hx; injection hx with hh; subst hh; norm_num)

/-- C9 (counterexample): tokenization is not lossless — on the input
`"a" :` the whitespace between the string literal and the colon is consumed by
the string alternative's `\s*` and never emitted, so the concatenated token
texts differ from the input. -/
theorem c9_tokenizer_drops_ws :
    tokenTexts (tokenize ('"' :: 'a' :: '"' :: ' ' :: ':' :: [])) ≠
      '"' :: 'a' :: '"' :: ' ' :: ':' :: [] := by
  decide

/-- C9 (amended): the tokenizer loses exactly the whitespace the string
alternative's `\s*` consumes: whenever no complete string literal of the input
is immediately followed by a whitespace character, concatenating the token
texts reproduces the input exactly. -/
theorem c9_token_concat (s : List Char) (h : noWsAfterStr s = true) :
    tokenTexts (tokenize s) = s :=
  tokenize_concat h

/-- C9 witness: round-trip on a concrete JSON-shaped input. -/
theorem c9_token_concat_witness :
    noWsAfterStr ('{' :: '"' :: 'a' :: '"' :: ':' :: '1' :: '}' :: []) = true ∧
    tokenTexts (tokenize
        ('{' :: '"' :: 'a' :: '"' :: ':' :: '1' :: '}' :: [])) =
      '{' :: '"' :: 'a' :: '"' :: ':' :: '1' :: '}' :: [] :=
  ⟨by decide, c9_token_concat _ (by decide)⟩

/-- C10: the exported `ring_id` is always a string (never null): a missing or
empty ring id exports as the sentinel "STANDALONE", and the graph search index
groups a node under a ring only when its ring id is real — `STANDALONE`,
`N/A`, the empty string and a missing id are all treated as membership in no
ring. -/
theorem c10_ring_id_export (a : Account) (nodes : List GNode) :
    (exportAccount a).objGet "ring_id" = some (.str (exportedRingId a)) ∧
    exportedRingId { a with ring_id := none } = "STANDALONE" ∧
    exportedRingId { a with ring_id := some "" } = "STANDALONE" ∧
    hasRealRing ⟨"ACC_009", 50, some "STANDALONE", true⟩ = false ∧
    hasRealRing ⟨"ACC_009", 50, some "N/A", true⟩ = false ∧
    hasRealRing ⟨"ACC_009", 50, none, true⟩ = false ∧
    ringGroups nodes = ringGroups (nodes.filter hasRealRing) := by
  refine ⟨rfl, rfl, rfl, by decide, by decide, by decide, ringGroups_skip nodes⟩

end MulingNet
